import Mathlib

/-!
Verification of the markdown2confluence sync engine (`main.go`).

The development shallowly embeds the program:

* `sha256Digest`, `fingerprint` — the content fingerprint computation
  (lines 107-114 of `main.go`), with SHA-256 implemented over byte lists
  (`Nat` values `< 256`) exactly as in FIPS 180-4.
* `renderHookDropCodeBlock` — the code-block rewrite hook (lines 349-367).
* `resolve`, `processDoc`, `mainLoop` — the per-document sync decision
  engine and the batch loop (lines 89-265), with the remote Confluence
  API modelled as an oracle of response functions and every repository
  call recorded in a trace.
-/

/-- Go `strings.HasPrefix` on the character lists of two strings:
`listStarts pre l` is true when `pre` is an initial segment of `l`. -/
def listStarts : List Char → List Char → Bool
  | [], _ => true
  | _ :: _, [] => false
  | a :: as, b :: bs => a == b && listStarts as bs

/-- Go `strings.HasPrefix s pre`. -/
def strHasPre (s pre : String) : Bool :=
  listStarts pre.data s.data

/-- Go `strings.Join elems sep`: empty result on the empty list, otherwise
the elements interleaved with the separator. -/
def goJoin (elems : List String) (sep : String) : String :=
  match elems with
  | [] => ""
  | e :: rest => rest.foldl (fun acc x => acc ++ sep ++ x) e

/-- Character-list worker for `replaceFirst`: replace the first occurrence
of the (non-empty) pattern `pat` by `rep`. -/
def replaceFirstAux (pat rep : List Char) : List Char → List Char
  | [] => []
  | c :: cs =>
    if listStarts pat (c :: cs) then rep ++ (c :: cs).drop pat.length
    else c :: replaceFirstAux pat rep cs

/-- Go `strings.Replace s pat rep 1`: replace the first occurrence of
`pat` in `s` by `rep` (an empty pattern inserts `rep` at the front). -/
def replaceFirst (s pat rep : String) : String :=
  if pat.data.isEmpty then rep ++ s
  else String.mk (replaceFirstAux pat.data rep.data s.data)

/-! ## SHA-256 over byte lists

Bytes and 32-bit words are `Nat` values; every word-level operation is
reduced modulo `2 ^ 32`. -/

/-- Right rotation of a 32-bit word (a `Nat` below `2 ^ 32`). -/
def rotr (n w : Nat) : Nat :=
  w / 2 ^ n + w % 2 ^ n * 2 ^ (32 - n)

/-- SHA-256 `Ch` function. -/
def shaCh (x y z : Nat) : Nat :=
  (x &&& y) ^^^ ((x ^^^ 0xffffffff) &&& z)

/-- SHA-256 `Maj` function. -/
def shaMaj (x y z : Nat) : Nat :=
  (x &&& y) ^^^ (x &&& z) ^^^ (y &&& z)

/-- SHA-256 `Σ0`. -/
def bigSigma0 (x : Nat) : Nat := rotr 2 x ^^^ rotr 13 x ^^^ rotr 22 x

/-- SHA-256 `Σ1`. -/
def bigSigma1 (x : Nat) : Nat := rotr 6 x ^^^ rotr 11 x ^^^ rotr 25 x

/-- SHA-256 `σ0`. -/
def smallSigma0 (x : Nat) : Nat := rotr 7 x ^^^ rotr 18 x ^^^ x / 2 ^ 3

/-- SHA-256 `σ1`. -/
def smallSigma1 (x : Nat) : Nat := rotr 17 x ^^^ rotr 19 x ^^^ x / 2 ^ 10

/-- The eight 32-bit words of the SHA-256 working state. -/
structure Hash8 where
  a : Nat
  b : Nat
  c : Nat
  d : Nat
  e : Nat
  f : Nat
  g : Nat
  h : Nat
deriving DecidableEq

/-- SHA-256 initial hash value. -/
def initH : Hash8 :=
  ⟨1779033703, 3144134277, 1013904242, 2773480762,
   1359893119, 2600822924, 528734635, 1541459225⟩

/-- The 64 SHA-256 round constants. -/
def shaK : List Nat :=
  [1116352408, 1899447441, 3049323471, 3921009573, 961987163, 1508970993,
   2453635748, 2870763221, 3624381080, 310598401, 607225278, 1426881987,
   1925078388, 2162078206, 2614888103, 3248222580, 3835390401, 4022224774,
   264347078, 604807628, 770255983, 1249150122, 1555081692, 1996064986,
   2554220882, 2821834349, 2952996808, 3210313671, 3336571891, 3584528711,
   113926993, 338241895, 666307205, 773529912, 1294757372, 1396182291,
   1695183700, 1986661051, 2177026350, 2456956037, 2730485921, 2820302411,
   3259730800, 3345764771, 3516065817, 3600352804, 4094571909, 275423344,
   430227734, 506948616, 659060556, 883997877, 958139571, 1322822218,
   1537002063, 1747873779, 1955562222, 2024104815, 2227730452, 2361852424,
   2428436474, 2756734187, 3204031479, 3329325298]

/-- Assemble big-endian 32-bit words from a byte list (four bytes per word). -/
def bytesToWords : List Nat → List Nat
  | a :: b :: c :: d :: rest => (((a * 256 + b) * 256 + c) * 256 + d) :: bytesToWords rest
  | _ => []

/-- Message-schedule extension: append `n` further words, each computed
from the words 2, 7, 15 and 16 positions back. -/
def extendWords : Nat → List Nat → List Nat
  | 0, ws => ws
  | n + 1, ws =>
    extendWords n (ws ++ [(smallSigma1 (ws.getD (ws.length - 2) 0) +
      ws.getD (ws.length - 7) 0 +
      smallSigma0 (ws.getD (ws.length - 15) 0) +
      ws.getD (ws.length - 16) 0) % 2 ^ 32])

/-- One SHA-256 compression round; `wk` is the pair (round constant, scheduled word). -/
def shaRound (s : Hash8) (wk : Nat × Nat) : Hash8 :=
  let t1 := (s.h + bigSigma1 s.e + shaCh s.e s.f s.g + wk.1 + wk.2) % 2 ^ 32
  let t2 := (bigSigma0 s.a + shaMaj s.a s.b s.c) % 2 ^ 32
  ⟨(t1 + t2) % 2 ^ 32, s.a, s.b, s.c, (s.d + t1) % 2 ^ 32, s.e, s.f, s.g⟩

/-- Process one 64-byte chunk. -/
def shaCompress (s : Hash8) (chunk : List Nat) : Hash8 :=
  let w := extendWords 48 (bytesToWords chunk)
  let t := (shaK.zip w).foldl shaRound s
  ⟨(s.a + t.a) % 2 ^ 32, (s.b + t.b) % 2 ^ 32, (s.c + t.c) % 2 ^ 32, (s.d + t.d) % 2 ^ 32,
   (s.e + t.e) % 2 ^ 32, (s.f + t.f) % 2 ^ 32, (s.g + t.g) % 2 ^ 32, (s.h + t.h) % 2 ^ 32⟩

/-- Big-endian bytes of a 64-bit length value. -/
def lenBytes64 (n : Nat) : List Nat :=
  [n / 2 ^ 56 % 256, n / 2 ^ 48 % 256, n / 2 ^ 40 % 256, n / 2 ^ 32 % 256,
   n / 2 ^ 24 % 256, n / 2 ^ 16 % 256, n / 2 ^ 8 % 256, n % 256]

/-- SHA-256 padding: append `0x80`, zeros up to 56 mod 64, then the
bit length as a big-endian 64-bit value. -/
def shaPad (msg : List Nat) : List Nat :=
  msg ++ [0x80] ++ List.replicate ((64 - (msg.length + 9) % 64) % 64) 0 ++
    lenBytes64 (msg.length * 8)

/-- Fuel-driven worker for `chunks64`; one unit of fuel is spent per chunk,
so fuel equal to the list length always suffices. -/
def chunks64Go : Nat → List Nat → List (List Nat)
  | 0, _ => []
  | _ + 1, [] => []
  | n + 1, c :: cs => (c :: cs).take 64 :: chunks64Go n ((c :: cs).drop 64)

/-- Split a byte list into 64-byte chunks. -/
def chunks64 (l : List Nat) : List (List Nat) :=
  chunks64Go l.length l

/-- Big-endian bytes of a 32-bit word. -/
def wordBytes (w : Nat) : List Nat :=
  [w / 2 ^ 24 % 256, w / 2 ^ 16 % 256, w / 2 ^ 8 % 256, w % 256]

/-- Serialize the final working state as the 32-byte digest. -/
def h8ToBytes (s : Hash8) : List Nat :=
  wordBytes s.a ++ wordBytes s.b ++ wordBytes s.c ++ wordBytes s.d ++
  wordBytes s.e ++ wordBytes s.f ++ wordBytes s.g ++ wordBytes s.h

/-- SHA-256 digest (32 bytes) of a byte list. -/
def sha256Digest (msg : List Nat) : List Nat :=
  h8ToBytes ((chunks64 (shaPad msg)).foldl shaCompress initH)

/-- The lowercase hexadecimal digit characters. -/
def hexDigitChars : List Char :=
  "0123456789abcdef".toList

/-- Lowercase hexadecimal digit for `n % 16`. -/
def hexDigit (n : Nat) : Char :=
  hexDigitChars.getD (n % 16) '0'

/-- Go `hex.EncodeToString`: two lowercase hex characters per byte. -/
def hexEncodeChars : List Nat → List Char
  | [] => []
  | b :: bs => hexDigit (b / 16) :: hexDigit b :: hexEncodeChars bs

/-- The content fingerprint of `main.go` lines 107-114:
`"sha-" + hex.EncodeToString(sha256(content))[0:8]`. -/
def fingerprint (content : List Nat) : String :=
  "sha-" ++ String.mk ((hexEncodeChars (sha256Digest content)).take 8)

example : fingerprint [] = "sha-e3b0c442" := by decide

example : fingerprint [0x61, 0x62, 0x63] = "sha-ba7816bf" := by decide

/-! ## Code-block rewrite hook (`main.go` lines 50-53 and 349-367) -/

/-- Opening tag of the Confluence code macro (`MACRO_XML_START`). -/
def MACRO_XML_START : String := "<ac:structured-macro ac:name=\"code\">"

/-- Language-parameter template (`MACRO_XML_LANGUAGE`). -/
def MACRO_XML_LANGUAGE : String := "<ac:parameter ac:name=\"language\">LANGUAGE</ac:parameter>"

/-- CDATA body template (`MACRO_XML_BODY`). -/
def MACRO_XML_BODY : String := "<ac:plain-text-body><![CDATA[BODY]]></ac:plain-text-body>"

/-- Closing tag of the Confluence code macro (`MACRO_XML_STOP`). -/
def MACRO_XML_STOP : String := "</ac:structured-macro>"

/-- A markdown code-block node: its info (language annotation) and its
literal text, the two fields of `ast.CodeBlock` the hook reads. -/
structure CodeBlock where
  info : String
  literal : String
deriving DecidableEq

/-- The fragment written by `renderHookDropCodeBlock` (`main.go` 349-367)
for a code-block node: a 5-element slice of empty strings is allocated,
the macro parts are appended, and everything is joined with `"\n"`. -/
def renderHookDropCodeBlock (cb : CodeBlock) : String :=
  let parts := List.replicate 5 ""
  let parts := parts ++ [MACRO_XML_START]
  let parts := if 0 < cb.info.length
    then parts ++ [replaceFirst MACRO_XML_LANGUAGE "LANGUAGE" cb.info]
    else parts
  let parts := parts ++ [replaceFirst MACRO_XML_BODY "BODY" cb.literal]
  let parts := parts ++ [MACRO_XML_STOP]
  goJoin parts "\n"

/-- Language-parameter tag with the annotation substituted verbatim. -/
def langPart (info : String) : String :=
  "<ac:parameter ac:name=\"language\">" ++ info ++ "</ac:parameter>"

/-- CDATA-wrapped plain-text body with the code text unmodified. -/
def bodyPart (literal : String) : String :=
  "<ac:plain-text-body><![CDATA[" ++ literal ++ "]]></ac:plain-text-body>"

/-- The four semantic parts of the code-macro fragment in the order the
spec states: macro-open tag, optional language tag (omitted entirely when
the annotation is empty), CDATA body, macro-close tag. -/
def macroParts (cb : CodeBlock) : List String :=
  [MACRO_XML_START] ++
  (if 0 < cb.info.length then [langPart cb.info] else []) ++
  [bodyPart cb.literal, MACRO_XML_STOP]

/-! ## The sync decision engine (`main.go` lines 56-301)

The remote Confluence service is an oracle of response functions; every
repository call the engine issues is recorded in a trace. -/

/-- The fields of `goconfluence.Content` the engine reads: page id and
version number. -/
structure Content where
  id : String
  version : Nat
deriving DecidableEq

/-- The zero `goconfluence.Content{}` value. -/
def emptyContent : Content := ⟨"", 0⟩

/-- A page label (`goconfluence.Label`). -/
structure Label where
  name : String
deriving DecidableEq

/-- A content-search response (`goconfluence.ContentSearch`): its size
and result list. -/
structure ContentSearch where
  size : Nat
  results : List Content
deriving DecidableEq

/-- The payload of a create or update call: the fields of
`goconfluence.Content` the engine fills in (`type`, `status` and
`representation` are the constants `"page"`, `"current"`, `"storage"`). -/
structure PageContent where
  id : String
  title : String
  version : Nat
  space : String
  parentID : String
  body : String
deriving DecidableEq

/-- One repository call, as recorded in the engine's trace. -/
inductive RepoCall where
  | find (title space : String)
  | getByID (pageID : String)
  | getLabels (pageID : String)
  | deleteLabel (pageID name : String)
  | update (p : PageContent)
  | create (p : PageContent)
  | addLabels (pageID : String) (names : List String)
deriving DecidableEq

/-- The remote API as an oracle: each field gives the service's response
to one kind of call. An `Except.error` response is a transport or
service error (`err != nil` in Go). -/
structure API where
  getContent : String → String → Except String ContentSearch
  getContentByID : String → Except String Content
  getLabels : String → Except String (List Label)
  deleteLabel : String → String → Except String Unit
  updateContent : PageContent → Except String Unit
  createContent : PageContent → Except String Content
  addLabels : String → List String → Except String Unit

/-- The reason a document failed, one per error branch of the per-document
loop in `main`. -/
inductive ErrKind where
  | readFailed
  | frontmatterFailed
  | missingSpace
  | missingParent
  | missingTitle
  | parentLookupFailed
  | versionReadFailed
  | labelsReadFailed
  | deleteLabelFailed
  | updateFailed
  | addLabelsFailed
  | createFailed
deriving DecidableEq

/-- Terminal outcome of one document. -/
inductive Outcome where
  | failed (e : ErrKind)
  | skip
  | updated
  | created
deriving DecidableEq

/-- The frontmatter fields of one document (`FrontMatterStruct`); the body
is kept as its byte list. -/
structure FrontMatterStruct where
  space : String
  pageTitle : String
  parentID : String
  parentTitle : String
  content : List Nat
deriving DecidableEq

/-- The global configuration the engine reads (`CLI.DefaultSpace` and
`CLI.DefaultAncestor`). -/
structure Config where
  defaultSpace : String
  defaultAncestor : String
deriving DecidableEq

/-- Embeds `GetPageFromName` (`main.go` 268-279): search by title within a space;
errors propagate with `found = false`, an empty search is
`(zero page, false, nil)`, otherwise the first result is returned. -/
def GetPageFromName (api : API) (space pageName : String) :
    Content × Bool × Option String :=
  match api.getContent pageName space with
  | .error e => (emptyContent, false, some e)
  | .ok cs =>
    if cs.size = 0 then (emptyContent, false, none)
    else (cs.results.headD emptyContent, true, none)

/-- Embeds `GetPageVersion` (`main.go` 281-288). -/
def GetPageVersion (api : API) (pageId : String) : Except String Nat :=
  match api.getContentByID pageId with
  | .error e => .error e
  | .ok content => .ok content.version

/-- The pure part of `GetHashFromLabels` (`main.go` 295-300): the first
label whose name has the `"sha-"` prefix, or the zero label. -/
def firstShaLabel (labels : List Label) : Label :=
  match labels.find? (fun label => strHasPre label.name "sha-") with
  | some label => label
  | none => ⟨""⟩

/-- Embeds `GetHashFromLabels` (`main.go` 290-301). -/
def GetHashFromLabels (api : API) (pageID : String) : Except String Label :=
  match api.getLabels pageID with
  | .error e => .error e
  | .ok labels => .ok (firstShaLabel labels)

/-- Lines 127-145 of `main`: resolve the parent page id — explicit
`parent_id`, else lookup by `parent_title`, else the default ancestor.
Returns the resolved id and the trace of repository calls made, or the
failure and its trace. -/
def resolveParent (cfg : Config) (api : API) (space : String)
    (fm : FrontMatterStruct) :
    Except (ErrKind × List RepoCall) (String × List RepoCall) :=
  if fm.parentID.length = 0 then
    if fm.parentTitle.length ≠ 0 then
      match GetPageFromName api space fm.parentTitle with
      | (_, _, some _) => .error (.parentLookupFailed, [.find fm.parentTitle space])
      | (page, _, none) => .ok (page.id, [.find fm.parentTitle space])
    else if cfg.defaultAncestor.length = 0 then .error (.missingParent, [])
    else .ok (cfg.defaultAncestor, [])
  else .ok (fm.parentID, [])

/-- The effective space after merging the default (lines 117-125 of `main`). -/
def mergedSpace (cfg : Config) (fm : FrontMatterStruct) : String :=
  if fm.space.length = 0 then cfg.defaultSpace else fm.space

/-- Lines 117-151 of `main`: merge the default space, resolve the parent,
then require a non-empty page title. On success returns the effective
space, the parent id and the trace so far. -/
def resolve (cfg : Config) (api : API) (fm : FrontMatterStruct) :
    Except (ErrKind × List RepoCall) (String × String × List RepoCall) :=
  if fm.space.length = 0 ∧ cfg.defaultSpace.length = 0 then
    .error (.missingSpace, [])
  else
    match resolveParent cfg api (mergedSpace cfg fm) fm with
    | .error et => .error et
    | .ok (parentID, t) =>
      if fm.pageTitle.length = 0 then .error (.missingTitle, t)
      else .ok (mergedSpace cfg fm, parentID, t)

/-- The update branch of `main` (lines 159-224): read the version, read
the labels, skip when the stored fingerprint matches, otherwise delete
the old label when present, submit the update with `version + 1`, and
attach the new fingerprint label. -/
def updateGo (api : API) (space parentID title sha htmlData : String)
    (page : Content) (t1 : List RepoCall) : Outcome × List RepoCall :=
  match GetPageVersion api page.id with
  | .error _ => (.failed .versionReadFailed, t1 ++ [.getByID page.id])
  | .ok version =>
    let t2 := t1 ++ [.getByID page.id]
    match GetHashFromLabels api page.id with
    | .error _ => (.failed .labelsReadFailed, t2 ++ [.getLabels page.id])
    | .ok pageHashLabel =>
      let t3 := t2 ++ [.getLabels page.id]
      if pageHashLabel.name = sha then (.skip, t3)
      else
        let delRes : Except String (List RepoCall) :=
          if pageHashLabel.name.length ≠ 0 then
            match api.deleteLabel page.id pageHashLabel.name with
            | .error e => .error e
            | .ok _ => .ok (t3 ++ [.deleteLabel page.id pageHashLabel.name])
          else .ok t3
        match delRes with
        | .error _ =>
          (.failed .deleteLabelFailed, t3 ++ [.deleteLabel page.id pageHashLabel.name])
        | .ok t4 =>
          let pageContent : PageContent :=
            { id := page.id, title := title, version := version + 1,
              space := space, parentID := parentID, body := htmlData }
          match api.updateContent pageContent with
          | .error _ => (.failed .updateFailed, t4 ++ [.update pageContent])
          | .ok _ =>
            match api.addLabels page.id [sha] with
            | .error _ =>
              (.failed .addLabelsFailed, t4 ++ [.update pageContent, .addLabels page.id [sha]])
            | .ok _ =>
              (.updated, t4 ++ [.update pageContent, .addLabels page.id [sha]])

/-- The create branch of `main` (lines 226-259): submit the create call
and attach the fingerprint label to the new page's id. -/
def createGo (api : API) (space parentID title sha htmlData : String)
    (t1 : List RepoCall) : Outcome × List RepoCall :=
  let pageContent : PageContent :=
    { id := "", title := title, version := 0,
      space := space, parentID := parentID, body := htmlData }
  match api.createContent pageContent with
  | .error _ => (.failed .createFailed, t1 ++ [.create pageContent])
  | .ok newPage =>
    match api.addLabels newPage.id [sha] with
    | .error _ =>
      (.failed .addLabelsFailed, t1 ++ [.create pageContent, .addLabels newPage.id [sha]])
    | .ok _ =>
      (.created, t1 ++ [.create pageContent, .addLabels newPage.id [sha]])

/-- One document's trip through the per-document body of `main`
(lines 107-260): fingerprint, validation and resolution, page lookup,
then the update branch when `found && err == nil` and the create branch
otherwise. `render` stands for the external markdown-to-storage pipeline
(`markdown.ToHTML`). Returns the terminal outcome and the full trace of
repository calls. -/
def processDoc (cfg : Config) (api : API) (render : List Nat → String)
    (fm : FrontMatterStruct) : Outcome × List RepoCall :=
  let contentSHA := fingerprint fm.content
  match resolve cfg api fm with
  | .error et => (.failed et.1, et.2)
  | .ok (space, parentID, t0) =>
    let (page, found, err) := GetPageFromName api space fm.pageTitle
    let t1 := t0 ++ [.find fm.pageTitle space]
    let htmlData := render fm.content
    if found = true ∧ err = none then
      updateGo api space parentID fm.pageTitle contentSHA htmlData page t1
    else
      createGo api space parentID fm.pageTitle contentSHA htmlData t1

/-- One batch item: reading the file or parsing its frontmatter can fail
before the engine runs (`main.go` lines 92-106). -/
inductive FileInput where
  | readError
  | frontmatterError
  | parsed (fm : FrontMatterStruct)

/-- Returns `true` exactly on the terminal success outcomes skip, update, create. -/
def isSuccess : Outcome → Bool
  | .failed _ => false
  | _ => true

/-- Outcome of one batch item (`main.go` 89-106 plus the engine):
read and frontmatter failures fail the document without repository calls. -/
def processFile (cfg : Config) (api : API) (render : List Nat → String) :
    FileInput → Outcome × List RepoCall
  | .readError => (.failed .readFailed, [])
  | .frontmatterError => (.failed .frontmatterFailed, [])
  | .parsed fm => processDoc cfg api render fm

/-- The batch loop of `main` (lines 89-261): every file is processed in
order, a failure clears the `success` flag and processing continues. -/
def mainLoop (cfg : Config) (api : API) (render : List Nat → String) :
    List FileInput → Bool → List Outcome × Bool
  | [], success => ([], success)
  | file :: rest, success =>
    let o := (processFile cfg api render file).1
    let success' := if isSuccess o then success else false
    let (os, s) := mainLoop cfg api render rest success'
    (o :: os, s)

/-- The whole run (lines 89-265): process every file starting from
`success = true`, then exit 0 when the flag survived and 1 otherwise. -/
def mainRun (cfg : Config) (api : API) (render : List Nat → String)
    (files : List FileInput) : List Outcome × Nat :=
  let (os, success) := mainLoop cfg api render files true
  (os, if success then 0 else 1)

/-! ## Remote label-set semantics

The effect of label mutations on a page's label set is behaviour of the
remote Confluence service, which is not part of this repository's source;
it is modelled from the spec. -/

/-- Modelled from the spec: the Page Repository's `addLabel` and
`deleteLabel` operations (spec section 6) act on a page's set of string
labels; `deleteLabel` removes the named label, `addLabel` adds a label
(a set, so adding a present label is a no-op). Calls naming another page
and read-only calls leave the set unchanged. -/
def applyCall (pid : String) (labels : List String) : RepoCall → List String
  | .deleteLabel p n => if p = pid then labels.filter (fun l => l != n) else labels
  | .addLabels p ns =>
    if p = pid then
      ns.foldl (fun acc n => if acc.contains n then acc else acc ++ [n]) labels
    else labels
  | _ => labels

/-- Modelled from the spec: the label set of page `pid` after a trace of
repository calls, starting from `labels`. -/
def applyCalls (pid : String) (labels : List String) (calls : List RepoCall) : List String :=
  calls.foldl (applyCall pid) labels

/-- Bool test for a `create` call. -/
def isCreateCall : RepoCall → Bool
  | .create _ => true
  | _ => false

/-- Bool test for an `update` call. -/
def isUpdateCall : RepoCall → Bool
  | .update _ => true
  | _ => false

/-- Bool test for a mutating call (delete label, update, add label, create). -/
def isMutationCall : RepoCall → Bool
  | .find _ _ => false
  | .getByID _ => false
  | .getLabels _ => false
  | _ => true

/-! ## Fingerprint facts -/

theorem fingerprint_data (c : List Nat) :
    (fingerprint c).data =
      's' :: 'h' :: 'a' :: '-' :: (hexEncodeChars (sha256Digest c)).take 8 := rfl

theorem sha256Digest_length (m : List Nat) : (sha256Digest m).length = 32 := by
  simp [sha256Digest, h8ToBytes, wordBytes]

theorem hexEncodeChars_length (bs : List Nat) :
    (hexEncodeChars bs).length = 2 * bs.length := by
  induction bs with
  | nil => rfl
  | cons b bs ih => simp [hexEncodeChars, ih]; omega

theorem fingerprint_length (c : List Nat) : (fingerprint c).length = 12 := by
  have h1 : (fingerprint c).length = (fingerprint c).data.length := rfl
  rw [h1, fingerprint_data]
  simp [List.length_take, hexEncodeChars_length, sha256Digest_length]

theorem fingerprint_ne_empty (c : List Nat) : fingerprint c ≠ "" := by
  intro h
  have h2 := congrArg String.length h
  rw [fingerprint_length] at h2
  exact absurd h2 (by decide)

theorem fingerprint_hasPre (c : List Nat) :
    strHasPre (fingerprint c) "sha-" = true := by
  unfold strHasPre
  rw [fingerprint_data]
  rfl

theorem sha_label_length_ne_zero (s : String) (h : strHasPre s "sha-" = true) :
    s.length ≠ 0 := by
  have hlen : s.length = s.data.length := rfl
  unfold strHasPre at h
  cases hd : s.data with
  | nil => rw [hd] at h; exact absurd h (by decide)
  | cons c cs => rw [hlen, hd]; simp

/-! ## Code-macro fragment facts -/

theorem replaceFirst_language (info : String) :
    replaceFirst MACRO_XML_LANGUAGE "LANGUAGE" info = langPart info := by
  apply String.ext
  rfl

theorem replaceFirst_body (literal : String) :
    replaceFirst MACRO_XML_BODY "BODY" literal = bodyPart literal := by
  apply String.ext
  rfl

theorem goJoin_one (sep x : String) : goJoin [x] sep = x := rfl

theorem goJoin_foldl_pull (sep : String) (xs : List String) (a : String) :
    ∀ y, xs.foldl (fun acc x => acc ++ sep ++ x) (a ++ y) =
      a ++ xs.foldl (fun acc x => acc ++ sep ++ x) y := by
  induction xs with
  | nil => intro y; simp
  | cons hd tl ih =>
    intro y
    simp only [List.foldl]
    rw [String.append_assoc a y sep, String.append_assoc a (y ++ sep) hd]
    exact ih ((y ++ sep) ++ hd)

theorem goJoin_cons_cons (sep x y : String) (ys : List String) :
    goJoin (x :: y :: ys) sep = x ++ sep ++ goJoin (y :: ys) sep := by
  show (y :: ys).foldl (fun acc z => acc ++ sep ++ z) x = _
  simp only [List.foldl]
  rw [show goJoin (y :: ys) sep = ys.foldl (fun acc z => acc ++ sep ++ z) y from rfl]
  rw [← goJoin_foldl_pull sep ys (x ++ sep) y]

theorem renderHook_eq_newlines_join (cb : CodeBlock) :
    renderHookDropCodeBlock cb = "\n\n\n\n\n" ++ goJoin (macroParts cb) "\n" := by
  unfold renderHookDropCodeBlock macroParts
  by_cases h : 0 < cb.info.length
  · simp only [if_pos h, replaceFirst_language, replaceFirst_body,
      List.replicate, List.cons_append, List.nil_append]
    simp only [goJoin_cons_cons]
    apply String.ext
    simp [String.data_append, goJoin_one]
  · simp only [if_neg h, replaceFirst_body,
      List.replicate, List.cons_append, List.nil_append]
    simp only [goJoin_cons_cons]
    apply String.ext
    simp [String.data_append, goJoin_one]

/-! ## Engine reduction lemmas -/

theorem processDoc_found (cfg : Config) (api : API) (render : List Nat → String)
    (fm : FrontMatterStruct) (space parentID : String) (t0 : List RepoCall)
    (cs : ContentSearch)
    (h1 : resolve cfg api fm = .ok (space, parentID, t0))
    (h2 : api.getContent fm.pageTitle space = .ok cs)
    (h3 : cs.size ≠ 0) :
    processDoc cfg api render fm =
      updateGo api space parentID fm.pageTitle (fingerprint fm.content)
        (render fm.content) (cs.results.headD emptyContent)
        (t0 ++ [.find fm.pageTitle space]) := by
  unfold processDoc
  rw [h1]
  simp [GetPageFromName, h2, h3]

theorem processDoc_notfound (cfg : Config) (api : API) (render : List Nat → String)
    (fm : FrontMatterStruct) (space parentID : String) (t0 : List RepoCall)
    (cs : ContentSearch)
    (h1 : resolve cfg api fm = .ok (space, parentID, t0))
    (h2 : api.getContent fm.pageTitle space = .ok cs)
    (h3 : cs.size = 0) :
    processDoc cfg api render fm =
      createGo api space parentID fm.pageTitle (fingerprint fm.content)
        (render fm.content) (t0 ++ [.find fm.pageTitle space]) := by
  unfold processDoc
  rw [h1]
  simp [GetPageFromName, h2, h3]

theorem processDoc_lookupError (cfg : Config) (api : API) (render : List Nat → String)
    (fm : FrontMatterStruct) (space parentID : String) (t0 : List RepoCall)
    (e : String)
    (h1 : resolve cfg api fm = .ok (space, parentID, t0))
    (h2 : api.getContent fm.pageTitle space = .error e) :
    processDoc cfg api render fm =
      createGo api space parentID fm.pageTitle (fingerprint fm.content)
        (render fm.content) (t0 ++ [.find fm.pageTitle space]) := by
  unfold processDoc
  rw [h1]
  simp [GetPageFromName, h2]

theorem resolveParent_ok_trace (cfg : Config) (api : API) (space : String)
    (fm : FrontMatterStruct) (parentID : String) (t : List RepoCall)
    (h : resolveParent cfg api space fm = .ok (parentID, t)) :
    t = [] ∨ t = [RepoCall.find fm.parentTitle space] := by
  unfold resolveParent at h
  by_cases hp : fm.parentID.length = 0
  · rw [if_pos hp] at h
    by_cases hpt : fm.parentTitle.length ≠ 0
    · rw [if_pos hpt] at h
      rcases hgp : GetPageFromName api space fm.parentTitle with ⟨page, found, err⟩
      rw [hgp] at h
      cases err with
      | some e => simp at h
      | none => simp only at h; cases h; exact Or.inr rfl
    · rw [if_neg hpt] at h
      by_cases hda : cfg.defaultAncestor.length = 0
      · rw [if_pos hda] at h; cases h
      · rw [if_neg hda] at h; cases h; exact Or.inl rfl
  · rw [if_neg hp] at h; cases h; exact Or.inl rfl

theorem resolve_ok_trace (cfg : Config) (api : API) (fm : FrontMatterStruct)
    (space parentID : String) (t0 : List RepoCall)
    (h : resolve cfg api fm = .ok (space, parentID, t0)) :
    t0 = [] ∨ t0 = [RepoCall.find fm.parentTitle space] := by
  unfold resolve at h
  by_cases hs : fm.space.length = 0 ∧ cfg.defaultSpace.length = 0
  · rw [if_pos hs] at h; cases h
  · rw [if_neg hs] at h
    rcases hrp : resolveParent cfg api (mergedSpace cfg fm) fm with et | pt
    · rw [hrp] at h; cases h
    · rcases pt with ⟨pid, t⟩
      rw [hrp] at h
      dsimp only at h
      by_cases ht : fm.pageTitle.length = 0
      · rw [if_pos ht] at h; cases h
      · rw [if_neg ht] at h
        cases h
        exact resolveParent_ok_trace cfg api (mergedSpace cfg fm) fm _ _ hrp

/-! ## Claim C7: the fingerprint -/

theorem hexDigit_mem (n : Nat) : hexDigit n ∈ hexDigitChars := by
  unfold hexDigit
  have h : n % 16 < 16 := Nat.mod_lt n (by decide)
  generalize n % 16 = k at h
  interval_cases k <;> decide

theorem hexEncodeChars_mem (bs : List Nat) (ch : Char)
    (h : ch ∈ hexEncodeChars bs) : ch ∈ hexDigitChars := by
  induction bs with
  | nil => cases h
  | cons b bs ih =>
    simp only [hexEncodeChars, List.mem_cons] at h
    rcases h with h | h | h
    · rw [h]; exact hexDigit_mem _
    · rw [h]; exact hexDigit_mem _
    · exact ih h

/-- Claim C7: for every body byte sequence, the computed fingerprint is
the literal prefix "sha-" followed by the first 8 characters of the
lowercase hexadecimal encoding of the SHA-256 digest of exactly those
bytes; fingerprinting is total (the result is always a 12-character
string whose tail consists of lowercase hexadecimal digits) and
deterministic (identical body bytes yield the identical string). -/
theorem c7_fingerprint_shape : ∀ content : List Nat,
    (fingerprint content =
      "sha-" ++ String.mk ((hexEncodeChars (sha256Digest content)).take 8) ∧
     (fingerprint content).length = 12 ∧
     ∀ ch ∈ (fingerprint content).data.drop 4, ch ∈ hexDigitChars) ∧
    ∀ content₂ : List Nat, content = content₂ →
      fingerprint content = fingerprint content₂ := by
  intro content
  refine ⟨⟨rfl, fingerprint_length content, ?_⟩, ?_⟩
  · rw [fingerprint_data]
    intro ch hch
    simp only [List.drop] at hch
    exact hexEncodeChars_mem _ _ (List.mem_of_mem_take hch)
  · intro c2 h
    rw [h]

/-- Witness for C7 at concrete inputs. -/
theorem c7_witness :
    (fingerprint [0x61]).length = 12 ∧ fingerprint [0x61] = fingerprint [0x61] :=
  ⟨(c7_fingerprint_shape [0x61]).1.2.1,
   (c7_fingerprint_shape [0x61]).2 [0x61] rfl⟩

/-! ## Claims C3 and C10: the code-macro fragment -/

/-- Claim C3 counterexample: at a concrete code block (language `python`,
text `print(1)`) the rendered fragment is not exactly the four parts
joined with newline separators — five newline characters precede them,
because the parts slice starts as five empty strings. -/
theorem c3_counterexample :
    renderHookDropCodeBlock ⟨"python", "print(1)"⟩ ≠
      goJoin (macroParts ⟨"python", "print(1)"⟩) "\n" := by decide

/-- Claim C3 (amended): for every code block the rendered fragment is
exactly five newline characters followed by the parts (macro-open tag,
language tag with the annotation substituted verbatim — present only when
the annotation is non-empty, never emitted empty —, CDATA-wrapped body
with the code text unmodified, macro-close tag) joined with newline
separators in that fixed order. -/
theorem c3_amended (cb : CodeBlock) :
    renderHookDropCodeBlock cb = "\n\n\n\n\n" ++ goJoin (macroParts cb) "\n" :=
  renderHook_eq_newlines_join cb

theorem listStarts_append (pre r : List Char) : listStarts pre (pre ++ r) = true := by
  induction pre with
  | nil => rfl
  | cons c cs ih => simp [listStarts, ih]

/-- Claim C10: for every code block the emitted fragment begins with five
newline characters, followed directly by the macro-open tag. -/
theorem c10_leading_newlines (cb : CodeBlock) :
    (renderHookDropCodeBlock cb).data.take 5 = List.replicate 5 '\n' ∧
    ((renderHookDropCodeBlock cb).data.drop 5).take 36 = MACRO_XML_START.data := by
  have hex : ∃ r, (renderHookDropCodeBlock cb).data =
      List.replicate 5 '\n' ++ (MACRO_XML_START.data ++ r) := by
    rw [renderHook_eq_newlines_join]
    by_cases h : 0 < cb.info.length
    · refine ⟨("\n" ++ goJoin [langPart cb.info, bodyPart cb.literal, MACRO_XML_STOP] "\n").data, ?_⟩
      simp [macroParts, if_pos h, goJoin_cons_cons, String.data_append,
        List.append_assoc, List.replicate]
    · refine ⟨("\n" ++ goJoin [bodyPart cb.literal, MACRO_XML_STOP] "\n").data, ?_⟩
      simp [macroParts, if_neg h, goJoin_cons_cons, String.data_append,
        List.append_assoc, List.replicate]
  obtain ⟨r, hr⟩ := hex
  constructor
  · rw [hr]
    exact List.take_left' (by simp)
  · rw [hr, List.drop_left' (by simp)]
    exact List.take_left' (by decide)

/-! ## Claim C9: the batch loop -/

theorem isSuccess_iff (o : Outcome) :
    isSuccess o = true ↔ (o = .skip ∨ o = .updated ∨ o = .created) := by
  cases o <;> simp [isSuccess]

theorem mainLoop_spec (cfg : Config) (api : API) (render : List Nat → String)
    (files : List FileInput) : ∀ s : Bool,
    mainLoop cfg api render files s =
      (files.map (fun f => (processFile cfg api render f).1),
       s && files.all (fun f => isSuccess (processFile cfg api render f).1)) := by
  induction files with
  | nil => intro s; simp [mainLoop]
  | cons f rest ih =>
    intro s
    simp only [mainLoop, ih, List.map, List.all]
    by_cases ho : isSuccess (processFile cfg api render f).1
    · simp [ho]
    · simp [eq_false_of_ne_true ho]

/-- Claim C9: every document in a batch is processed (a failure in one
never aborts the remaining ones — the outcomes are exactly the per-file
results, in order), and the exit code is 0 exactly when every document
reached a terminal success outcome (skip, update or create). -/
theorem c9_batch_resilience (cfg : Config) (api : API)
    (render : List Nat → String) (files : List FileInput) :
    (mainRun cfg api render files).1 =
      files.map (fun f => (processFile cfg api render f).1) ∧
    ((mainRun cfg api render files).2 = 0 ↔
      ∀ o ∈ (mainRun cfg api render files).1,
        o = .skip ∨ o = .updated ∨ o = .created) := by
  unfold mainRun
  rw [mainLoop_spec]
  refine ⟨rfl, ?_⟩
  simp only [Bool.true_and]
  by_cases hall : files.all (fun f => isSuccess (processFile cfg api render f).1)
  · rw [if_pos hall]
    simp only [eq_self_iff_true, true_iff]
    intro o ho
    rcases List.mem_map.mp ho with ⟨f, hf, rfl⟩
    exact (isSuccess_iff _).mp (List.all_eq_true.mp hall f hf)
  · rw [if_neg hall]
    constructor
    · intro h; cases h
    · intro h
      exfalso
      rcases List.all_eq_false.mp (eq_false_of_ne_true hall) with ⟨f, hf, hbad⟩
      exact hbad ((isSuccess_iff _).mpr
        (h _ (List.mem_map.mpr ⟨f, hf, rfl⟩)))

/-! ## Claim C1: page-lookup errors take the create branch -/

/-- Configuration with no defaults, used by concrete evaluations. -/
def cfgA : Config := ⟨"", ""⟩

/-- A document with explicit space, title and parent id and an empty body. -/
def docA : FrontMatterStruct := ⟨"S", "T", "P", "", []⟩

/-- An oracle whose content search always errors while create and label
calls succeed. -/
def apiA : API :=
  { getContent := fun _ _ => .error "boom"
    getContentByID := fun _ => .error "unused"
    getLabels := fun _ => .error "unused"
    deleteLabel := fun _ _ => .error "unused"
    updateContent := fun _ => .error "unused"
    createContent := fun _ => .ok ⟨"NEW", 1⟩
    addLabels := fun _ _ => .ok () }

/-- A stand-in for the external markdown renderer. -/
def renderA : List Nat → String := fun _ => "HTML"

set_option maxRecDepth 4000 in
/-- Claim C1, evaluated at the failing input: when the page lookup by
(space, pageTitle) returns an error, the engine does not mark the
document failed — `GetPageFromName`'s error is never checked after line
154 of `main.go`, the guard `found && err == nil` is false, and the
else branch issues a create call and a label call; the outcome is
`created` and the run stays successful, where the spec requires a failed
document, no create call and an unsuccessful run. -/
theorem c1_lookup_error_creates :
    processDoc cfgA apiA renderA docA =
      (.created,
       [.find "T" "S",
        .create ⟨"", "T", 0, "S", "P", "HTML"⟩,
        .addLabels "NEW" ["sha-e3b0c442"]]) ∧
    (mainRun cfgA apiA renderA [.parsed docA]).2 = 0 := by
  constructor
  · decide
  · decide

/-! ## Claim C2: validation gating -/

/-- An oracle whose content search finds one page with id `PID`. -/
def apiB : API :=
  { getContent := fun _ _ => .ok ⟨1, [⟨"PID", 3⟩]⟩
    getContentByID := fun _ => .error "unused"
    getLabels := fun _ => .error "unused"
    deleteLabel := fun _ _ => .error "unused"
    updateContent := fun _ => .error "unused"
    createContent := fun _ => .error "unused"
    addLabels := fun _ _ => .error "unused" }

/-- A document with an empty page title whose parent must be resolved by
title. -/
def docB : FrontMatterStruct := ⟨"S", "", "", "PT", []⟩

set_option maxRecDepth 4000 in
/-- Claim C2 counterexample: a document with an empty pageTitle whose
parent is given by title issues one repository call (the parent-title
lookup at lines 127-136, which precedes the title check at line 147)
before failing with MissingTitle — not zero calls. -/
theorem c2_counterexample :
    processDoc cfgA apiB renderA docB = (.failed .missingTitle, [.find "PT" "S"]) ∧
    (processDoc cfgA apiB renderA docB).2 ≠ [] := by
  constructor
  · decide
  · decide

theorem resolveParent_err (cfg : Config) (api : API) (space : String)
    (fm : FrontMatterStruct) (e : ErrKind) (t : List RepoCall)
    (h : resolveParent cfg api space fm = .error (e, t)) :
    (e = .missingParent ∧ t = []) ∨
    (e = .parentLookupFailed ∧ t = [RepoCall.find fm.parentTitle space]) := by
  unfold resolveParent at h
  by_cases hp : fm.parentID.length = 0
  · rw [if_pos hp] at h
    by_cases hpt : fm.parentTitle.length ≠ 0
    · rw [if_pos hpt] at h
      rcases hgp : GetPageFromName api space fm.parentTitle with ⟨page, found, err⟩
      rw [hgp] at h
      cases err with
      | some e2 => simp only at h; cases h; exact Or.inr ⟨rfl, rfl⟩
      | none => simp at h
    · rw [if_neg hpt] at h
      by_cases hda : cfg.defaultAncestor.length = 0
      · rw [if_pos hda] at h; cases h; exact Or.inl ⟨rfl, rfl⟩
      · rw [if_neg hda] at h; cases h
  · rw [if_neg hp] at h; cases h

theorem resolve_empty_title (cfg : Config) (api : API) (fm : FrontMatterStruct)
    (ht : fm.pageTitle.length = 0) :
    resolve cfg api fm = .error (.missingSpace, []) ∨
    resolve cfg api fm = .error (.missingParent, []) ∨
    resolve cfg api fm =
      .error (.parentLookupFailed, [.find fm.parentTitle (mergedSpace cfg fm)]) ∨
    resolve cfg api fm = .error (.missingTitle, []) ∨
    resolve cfg api fm =
      .error (.missingTitle, [.find fm.parentTitle (mergedSpace cfg fm)]) := by
  unfold resolve
  by_cases hs : fm.space.length = 0 ∧ cfg.defaultSpace.length = 0
  · rw [if_pos hs]; exact Or.inl rfl
  · rw [if_neg hs]
    rcases hrp : resolveParent cfg api (mergedSpace cfg fm) fm with et | pt
    · rcases et with ⟨e, t⟩
      rcases resolveParent_err cfg api (mergedSpace cfg fm) fm e t hrp with ⟨he, hta⟩ | ⟨he, hta⟩
      · subst he; subst hta; exact Or.inr (Or.inl rfl)
      · subst he; subst hta; exact Or.inr (Or.inr (Or.inl rfl))
    · rcases pt with ⟨pid, t⟩
      dsimp only
      rw [if_pos ht]
      rcases resolveParent_ok_trace cfg api (mergedSpace cfg fm) fm pid t hrp with h | h
      · subst h; exact Or.inr (Or.inr (Or.inr (Or.inl rfl)))
      · subst h; exact Or.inr (Or.inr (Or.inr (Or.inr rfl)))

theorem processDoc_resolve_error (cfg : Config) (api : API)
    (render : List Nat → String) (fm : FrontMatterStruct)
    (e : ErrKind) (t : List RepoCall)
    (h : resolve cfg api fm = .error (e, t)) :
    processDoc cfg api render fm = (.failed e, t) := by
  unfold processDoc
  rw [h]

/-- Claim C2 (amended): a document with an empty pageTitle never reaches
the page lookup or any create, update or label call — it fails during
validation or parent resolution, and the only repository call possibly
issued is a single parent-title lookup, made at lines 127-136 before the
title check at line 147; the failure kind is MissingTitle unless an
earlier validation or the parent lookup failed first. A document with an
empty space and no configured default space fails with MissingSpace and
zero repository calls. -/
theorem c2_amended (cfg : Config) (api : API) (render : List Nat → String)
    (fm : FrontMatterStruct) :
    (fm.pageTitle.length = 0 →
      ((processDoc cfg api render fm).1 = .failed .missingSpace ∨
       (processDoc cfg api render fm).1 = .failed .missingParent ∨
       (processDoc cfg api render fm).1 = .failed .parentLookupFailed ∨
       (processDoc cfg api render fm).1 = .failed .missingTitle) ∧
      ((processDoc cfg api render fm).2 = [] ∨
       (processDoc cfg api render fm).2 =
         [RepoCall.find fm.parentTitle (mergedSpace cfg fm)])) ∧
    (fm.space.length = 0 → cfg.defaultSpace.length = 0 →
      processDoc cfg api render fm = (.failed .missingSpace, [])) := by
  constructor
  · intro ht
    rcases resolve_empty_title cfg api fm ht with h | h | h | h | h <;>
      rw [processDoc_resolve_error cfg api render fm _ _ h] <;>
      simp
  · intro hsp hdef
    apply processDoc_resolve_error
    unfold resolve
    rw [if_pos ⟨hsp, hdef⟩]

set_option maxRecDepth 4000 in
/-- Witness for C2 (amended) at a concrete input. -/
theorem c2_witness :
    (processDoc cfgA apiB renderA docB).1 = .failed .missingTitle ∧
    processDoc cfgA ⟨fun _ _ => .error "x", fun _ => .error "x", fun _ => .error "x",
      fun _ _ => .error "x", fun _ => .error "x", fun _ => .error "x",
      fun _ _ => .error "x"⟩ renderA ⟨"", "T", "", "", []⟩ =
      (.failed .missingSpace, []) := by
  constructor
  · have h := (c2_amended cfgA apiB renderA docB).1 (by decide)
    rcases h.1 with h1 | h1 | h1 | h1
    · exact absurd h1 (by decide)
    · exact absurd h1 (by decide)
    · exact absurd h1 (by decide)
    · exact h1
  · exact (c2_amended cfgA _ renderA _).2 rfl rfl

/-! ## Update-branch characterizations -/

theorem updateGo_skip (api : API) (space parentID title sha html : String)
    (page : Content) (t1 : List RepoCall) (pinfo : Content) (labels : List Label)
    (h4 : api.getContentByID page.id = .ok pinfo)
    (h5 : api.getLabels page.id = .ok labels)
    (heq : (firstShaLabel labels).name = sha) :
    updateGo api space parentID title sha html page t1 =
      (.skip, t1 ++ [.getByID page.id, .getLabels page.id]) := by
  unfold updateGo
  simp [GetPageVersion, GetHashFromLabels, h4, h5, heq]

theorem updateGo_ne_skip (api : API) (space parentID title sha html : String)
    (page : Content) (t1 : List RepoCall) (pinfo : Content) (labels : List Label)
    (h4 : api.getContentByID page.id = .ok pinfo)
    (h5 : api.getLabels page.id = .ok labels)
    (hne : (firstShaLabel labels).name ≠ sha) :
    (updateGo api space parentID title sha html page t1).1 ≠ .skip := by
  unfold updateGo
  simp only [GetPageVersion, GetHashFromLabels, h4, h5]
  rw [if_neg hne]
  by_cases hlen : (firstShaLabel labels).name.length ≠ 0
  · rw [if_pos hlen]
    cases hdel : api.deleteLabel page.id (firstShaLabel labels).name with
    | error e => simp [hdel]
    | ok u =>
      simp only [hdel]
      cases api.updateContent ⟨page.id, title, pinfo.version + 1, space, parentID, html⟩ with
      | error e => simp
      | ok u2 =>
        cases api.addLabels page.id [sha] with
        | error e => simp
        | ok u3 => simp
  · rw [if_neg hlen]
    simp only
    cases api.updateContent ⟨page.id, title, pinfo.version + 1, space, parentID, html⟩ with
    | error e => simp
    | ok u2 =>
      cases api.addLabels page.id [sha] with
      | error e => simp
      | ok u3 => simp

theorem updateGo_success (api : API) (space parentID title sha html : String)
    (page : Content) (t1 : List RepoCall) (pinfo : Content) (labels : List Label)
    (h4 : api.getContentByID page.id = .ok pinfo)
    (h5 : api.getLabels page.id = .ok labels)
    (hne : (firstShaLabel labels).name ≠ sha)
    (hdel : (firstShaLabel labels).name.length ≠ 0 →
      api.deleteLabel page.id (firstShaLabel labels).name = .ok ())
    (hupd : api.updateContent
      ⟨page.id, title, pinfo.version + 1, space, parentID, html⟩ = .ok ())
    (hadd : api.addLabels page.id [sha] = .ok ()) :
    updateGo api space parentID title sha html page t1 =
      (.updated,
       t1 ++ [.getByID page.id, .getLabels page.id] ++
       (if (firstShaLabel labels).name.length ≠ 0 then
          [RepoCall.deleteLabel page.id (firstShaLabel labels).name] else []) ++
       [.update ⟨page.id, title, pinfo.version + 1, space, parentID, html⟩,
        .addLabels page.id [sha]]) := by
  unfold updateGo
  simp only [GetPageVersion, GetHashFromLabels, h4, h5]
  rw [if_neg hne]
  by_cases hlen : (firstShaLabel labels).name.length ≠ 0
  · simp [hlen, hdel hlen, hupd, hadd]
  · simp [hlen, hupd, hadd]

theorem updateGo_delete_fail (api : API) (space parentID title sha html : String)
    (page : Content) (t1 : List RepoCall) (pinfo : Content) (labels : List Label)
    (e : String)
    (h4 : api.getContentByID page.id = .ok pinfo)
    (h5 : api.getLabels page.id = .ok labels)
    (hne : (firstShaLabel labels).name ≠ sha)
    (hlen : (firstShaLabel labels).name.length ≠ 0)
    (hdel : api.deleteLabel page.id (firstShaLabel labels).name = .error e) :
    updateGo api space parentID title sha html page t1 =
      (.failed .deleteLabelFailed,
       t1 ++ [.getByID page.id, .getLabels page.id,
              .deleteLabel page.id (firstShaLabel labels).name]) := by
  unfold updateGo
  simp only [GetPageVersion, GetHashFromLabels, h4, h5]
  rw [if_neg hne]
  simp [hlen, hdel]

theorem updateGo_update_fail (api : API) (space parentID title sha html : String)
    (page : Content) (t1 : List RepoCall) (pinfo : Content) (labels : List Label)
    (e : String)
    (h4 : api.getContentByID page.id = .ok pinfo)
    (h5 : api.getLabels page.id = .ok labels)
    (hne : (firstShaLabel labels).name ≠ sha)
    (hdel : (firstShaLabel labels).name.length ≠ 0 →
      api.deleteLabel page.id (firstShaLabel labels).name = .ok ())
    (hupd : api.updateContent
      ⟨page.id, title, pinfo.version + 1, space, parentID, html⟩ = .error e) :
    updateGo api space parentID title sha html page t1 =
      (.failed .updateFailed,
       t1 ++ [.getByID page.id, .getLabels page.id] ++
       (if (firstShaLabel labels).name.length ≠ 0 then
          [RepoCall.deleteLabel page.id (firstShaLabel labels).name] else []) ++
       [.update ⟨page.id, title, pinfo.version + 1, space, parentID, html⟩]) := by
  unfold updateGo
  simp only [GetPageVersion, GetHashFromLabels, h4, h5]
  rw [if_neg hne]
  by_cases hlen : (firstShaLabel labels).name.length ≠ 0
  · simp [hlen, hdel hlen, hupd]
  · simp [hlen, hupd]

theorem updateGo_add_fail (api : API) (space parentID title sha html : String)
    (page : Content) (t1 : List RepoCall) (pinfo : Content) (labels : List Label)
    (e : String)
    (h4 : api.getContentByID page.id = .ok pinfo)
    (h5 : api.getLabels page.id = .ok labels)
    (hne : (firstShaLabel labels).name ≠ sha)
    (hdel : (firstShaLabel labels).name.length ≠ 0 →
      api.deleteLabel page.id (firstShaLabel labels).name = .ok ())
    (hupd : api.updateContent
      ⟨page.id, title, pinfo.version + 1, space, parentID, html⟩ = .ok ())
    (hadd : api.addLabels page.id [sha] = .error e) :
    updateGo api space parentID title sha html page t1 =
      (.failed .addLabelsFailed,
       t1 ++ [.getByID page.id, .getLabels page.id] ++
       (if (firstShaLabel labels).name.length ≠ 0 then
          [RepoCall.deleteLabel page.id (firstShaLabel labels).name] else []) ++
       [.update ⟨page.id, title, pinfo.version + 1, space, parentID, html⟩,
        .addLabels page.id [sha]]) := by
  unfold updateGo
  simp only [GetPageVersion, GetHashFromLabels, h4, h5]
  rw [if_neg hne]
  by_cases hlen : (firstShaLabel labels).name.length ≠ 0
  · simp [hlen, hdel hlen, hupd, hadd]
  · simp [hlen, hupd, hadd]

theorem updateGo_absent_update_count (api : API)
    (space parentID title sha html : String)
    (page : Content) (t1 : List RepoCall) (pinfo : Content) (labels : List Label)
    (h4 : api.getContentByID page.id = .ok pinfo)
    (h5 : api.getLabels page.id = .ok labels)
    (hname : (firstShaLabel labels).name = "")
    (hsha : sha ≠ "") :
    (updateGo api space parentID title sha html page t1).2.countP isUpdateCall =
      t1.countP isUpdateCall + 1 := by
  have hne : (firstShaLabel labels).name ≠ sha := by rw [hname]; exact fun h => hsha h.symm
  unfold updateGo
  simp only [GetPageVersion, GetHashFromLabels, h4, h5]
  rw [if_neg hne]
  have hlen : ¬((firstShaLabel labels).name.length ≠ 0) := by rw [hname]; simp
  rw [if_neg hlen]
  simp only
  cases api.updateContent ⟨page.id, title, pinfo.version + 1, space, parentID, html⟩ with
  | error e => simp [List.countP_append, isUpdateCall, List.countP_cons]
  | ok u =>
    cases api.addLabels page.id [sha] with
    | error e => simp [List.countP_append, isUpdateCall, List.countP_cons]
    | ok u2 => simp [List.countP_append, isUpdateCall, List.countP_cons]

/-! ## Claim C4: the skip fast path -/

theorem firstShaLabel_of_none (labels : List Label)
    (h : ∀ l ∈ labels, strHasPre l.name "sha-" = false) :
    firstShaLabel labels = ⟨""⟩ := by
  unfold firstShaLabel
  rw [List.find?_eq_none.mpr (fun x hx => by rw [h x hx]; simp)]

/-- Claim C4: for a document whose page is found (and whose version and
labels are readable), the skip outcome occurs exactly when the page's
current fingerprint label equals the newly computed fingerprint; on skip
the trace holds only the lookup and the two reads — no mutation; and a
found page carrying no label with the `"sha-"` prefix is never skipped
and is driven to an update submission. -/
theorem c4_skip_iff (cfg : Config) (api : API) (render : List Nat → String)
    (fm : FrontMatterStruct) (space parentID : String) (t0 : List RepoCall)
    (cs : ContentSearch) (pinfo : Content) (labels : List Label)
    (h1 : resolve cfg api fm = .ok (space, parentID, t0))
    (h2 : api.getContent fm.pageTitle space = .ok cs)
    (h3 : cs.size ≠ 0)
    (h4 : api.getContentByID (cs.results.headD emptyContent).id = .ok pinfo)
    (h5 : api.getLabels (cs.results.headD emptyContent).id = .ok labels) :
    ((processDoc cfg api render fm).1 = .skip ↔
      (firstShaLabel labels).name = fingerprint fm.content) ∧
    ((firstShaLabel labels).name = fingerprint fm.content →
      processDoc cfg api render fm =
        (.skip, t0 ++ [.find fm.pageTitle space,
          .getByID (cs.results.headD emptyContent).id,
          .getLabels (cs.results.headD emptyContent).id])) ∧
    ((∀ l ∈ labels, strHasPre l.name "sha-" = false) →
      (processDoc cfg api render fm).1 ≠ .skip ∧
      (processDoc cfg api render fm).2.countP isUpdateCall = 1) := by
  rw [processDoc_found cfg api render fm space parentID t0 cs h1 h2 h3]
  refine ⟨⟨?_, ?_⟩, ?_, ?_⟩
  · intro hskip
    by_contra hne
    exact updateGo_ne_skip api space parentID fm.pageTitle (fingerprint fm.content)
      (render fm.content) (cs.results.headD emptyContent)
      (t0 ++ [RepoCall.find fm.pageTitle space]) pinfo labels h4 h5 hne hskip
  · intro heq
    rw [updateGo_skip api space parentID fm.pageTitle (fingerprint fm.content)
      (render fm.content) (cs.results.headD emptyContent)
      (t0 ++ [RepoCall.find fm.pageTitle space]) pinfo labels h4 h5 heq]
  · intro heq
    rw [updateGo_skip api space parentID fm.pageTitle (fingerprint fm.content)
      (render fm.content) (cs.results.headD emptyContent)
      (t0 ++ [RepoCall.find fm.pageTitle space]) pinfo labels h4 h5 heq]
    simp
  · intro habs
    have hname : (firstShaLabel labels).name = "" := by
      rw [firstShaLabel_of_none labels habs]
    have hne : (firstShaLabel labels).name ≠ fingerprint fm.content := by
      rw [hname]
      exact fun h => fingerprint_ne_empty fm.content h.symm
    constructor
    · exact updateGo_ne_skip api space parentID fm.pageTitle (fingerprint fm.content)
        (render fm.content) (cs.results.headD emptyContent)
        (t0 ++ [RepoCall.find fm.pageTitle space]) pinfo labels h4 h5 hne
    · rw [updateGo_absent_update_count api space parentID fm.pageTitle
        (fingerprint fm.content) (render fm.content) (cs.results.headD emptyContent)
        (t0 ++ [RepoCall.find fm.pageTitle space]) pinfo labels h4 h5 hname
        (fingerprint_ne_empty fm.content)]
      rcases resolve_ok_trace cfg api fm space parentID t0 h1 with h | h <;> subst h <;>
        simp [List.countP_append, isUpdateCall, List.countP_cons]

/-! ## Claim C5: the update sequence -/

/-- Claim C5: a document on the update path (page found, reads succeed,
stored fingerprint differs) performs, in order and fail-fast into a
failed outcome on any error: the version read; the deletion of the
existing fingerprint label when one exists; the update submission whose
new version is the read version plus 1 and whose body is the rendered
markup; and, only after a successful update, the attachment of the
newly computed fingerprint label. -/
theorem c5_update_sequence (cfg : Config) (api : API) (render : List Nat → String)
    (fm : FrontMatterStruct) (space parentID : String) (t0 : List RepoCall)
    (cs : ContentSearch) (pinfo : Content) (labels : List Label)
    (h1 : resolve cfg api fm = .ok (space, parentID, t0))
    (h2 : api.getContent fm.pageTitle space = .ok cs)
    (h3 : cs.size ≠ 0)
    (h4 : api.getContentByID (cs.results.headD emptyContent).id = .ok pinfo)
    (h5 : api.getLabels (cs.results.headD emptyContent).id = .ok labels)
    (hne : (firstShaLabel labels).name ≠ fingerprint fm.content) :
    (∀ e, (firstShaLabel labels).name.length ≠ 0 →
      api.deleteLabel (cs.results.headD emptyContent).id
        (firstShaLabel labels).name = .error e →
      processDoc cfg api render fm =
        (.failed .deleteLabelFailed,
         t0 ++ [RepoCall.find fm.pageTitle space,
                .getByID (cs.results.headD emptyContent).id,
                .getLabels (cs.results.headD emptyContent).id,
                .deleteLabel (cs.results.headD emptyContent).id
                  (firstShaLabel labels).name])) ∧
    (∀ e, ((firstShaLabel labels).name.length ≠ 0 →
        api.deleteLabel (cs.results.headD emptyContent).id
          (firstShaLabel labels).name = .ok ()) →
      api.updateContent ⟨(cs.results.headD emptyContent).id, fm.pageTitle,
        pinfo.version + 1, space, parentID, render fm.content⟩ = .error e →
      processDoc cfg api render fm =
        (.failed .updateFailed,
         t0 ++ [RepoCall.find fm.pageTitle space,
                .getByID (cs.results.headD emptyContent).id,
                .getLabels (cs.results.headD emptyContent).id] ++
         (if (firstShaLabel labels).name.length ≠ 0 then
            [RepoCall.deleteLabel (cs.results.headD emptyContent).id
              (firstShaLabel labels).name] else []) ++
         [.update ⟨(cs.results.headD emptyContent).id, fm.pageTitle,
            pinfo.version + 1, space, parentID, render fm.content⟩])) ∧
    (∀ e, ((firstShaLabel labels).name.length ≠ 0 →
        api.deleteLabel (cs.results.headD emptyContent).id
          (firstShaLabel labels).name = .ok ()) →
      api.updateContent ⟨(cs.results.headD emptyContent).id, fm.pageTitle,
        pinfo.version + 1, space, parentID, render fm.content⟩ = .ok () →
      api.addLabels (cs.results.headD emptyContent).id [fingerprint fm.content] = .error e →
      processDoc cfg api render fm =
        (.failed .addLabelsFailed,
         t0 ++ [RepoCall.find fm.pageTitle space,
                .getByID (cs.results.headD emptyContent).id,
                .getLabels (cs.results.headD emptyContent).id] ++
         (if (firstShaLabel labels).name.length ≠ 0 then
            [RepoCall.deleteLabel (cs.results.headD emptyContent).id
              (firstShaLabel labels).name] else []) ++
         [.update ⟨(cs.results.headD emptyContent).id, fm.pageTitle,
            pinfo.version + 1, space, parentID, render fm.content⟩,
          .addLabels (cs.results.headD emptyContent).id [fingerprint fm.content]])) ∧
    (((firstShaLabel labels).name.length ≠ 0 →
        api.deleteLabel (cs.results.headD emptyContent).id
          (firstShaLabel labels).name = .ok ()) →
      api.updateContent ⟨(cs.results.headD emptyContent).id, fm.pageTitle,
        pinfo.version + 1, space, parentID, render fm.content⟩ = .ok () →
      api.addLabels (cs.results.headD emptyContent).id [fingerprint fm.content] = .ok () →
      processDoc cfg api render fm =
        (.updated,
         t0 ++ [RepoCall.find fm.pageTitle space,
                .getByID (cs.results.headD emptyContent).id,
                .getLabels (cs.results.headD emptyContent).id] ++
         (if (firstShaLabel labels).name.length ≠ 0 then
            [RepoCall.deleteLabel (cs.results.headD emptyContent).id
              (firstShaLabel labels).name] else []) ++
         [.update ⟨(cs.results.headD emptyContent).id, fm.pageTitle,
            pinfo.version + 1, space, parentID, render fm.content⟩,
          .addLabels (cs.results.headD emptyContent).id [fingerprint fm.content]])) := by
  rw [processDoc_found cfg api render fm space parentID t0 cs h1 h2 h3]
  refine ⟨?_, ?_, ?_, ?_⟩
  · intro e hlen hdel
    rw [updateGo_delete_fail api space parentID fm.pageTitle (fingerprint fm.content)
      (render fm.content) (cs.results.headD emptyContent)
      (t0 ++ [RepoCall.find fm.pageTitle space]) pinfo labels e h4 h5 hne hlen hdel]
    simp
  · intro e hdel hupd
    rw [updateGo_update_fail api space parentID fm.pageTitle (fingerprint fm.content)
      (render fm.content) (cs.results.headD emptyContent)
      (t0 ++ [RepoCall.find fm.pageTitle space]) pinfo labels e h4 h5 hne hdel hupd]
    simp
  · intro e hdel hupd hadd
    rw [updateGo_add_fail api space parentID fm.pageTitle (fingerprint fm.content)
      (render fm.content) (cs.results.headD emptyContent)
      (t0 ++ [RepoCall.find fm.pageTitle space]) pinfo labels e h4 h5 hne hdel hupd hadd]
    simp
  · intro hdel hupd hadd
    rw [updateGo_success api space parentID fm.pageTitle (fingerprint fm.content)
      (render fm.content) (cs.results.headD emptyContent)
      (t0 ++ [RepoCall.find fm.pageTitle space]) pinfo labels h4 h5 hne hdel hupd hadd]
    simp

/-! ## Claim C8: the create path -/

theorem createGo_cases (api : API) (space parentID title sha html : String)
    (t1 : List RepoCall) :
    (createGo api space parentID title sha html t1).2.countP isCreateCall =
      t1.countP isCreateCall + 1 ∧
    RepoCall.create ⟨"", title, 0, space, parentID, html⟩ ∈
      (createGo api space parentID title sha html t1).2 := by
  unfold createGo
  cases hc : api.createContent ⟨"", title, 0, space, parentID, html⟩ with
  | error e => simp [hc, List.countP_append, List.countP_cons, isCreateCall]
  | ok newPage =>
    cases ha : api.addLabels newPage.id [sha] with
    | error e => simp [hc, ha, List.countP_append, List.countP_cons, isCreateCall]
    | ok u => simp [hc, ha, List.countP_append, List.countP_cons, isCreateCall]

theorem createGo_success (api : API) (space parentID title sha html : String)
    (t1 : List RepoCall) (newPage : Content)
    (hc : api.createContent ⟨"", title, 0, space, parentID, html⟩ = .ok newPage)
    (ha : api.addLabels newPage.id [sha] = .ok ()) :
    createGo api space parentID title sha html t1 =
      (.created, t1 ++ [.create ⟨"", title, 0, space, parentID, html⟩,
                        .addLabels newPage.id [sha]]) := by
  unfold createGo
  simp [hc, ha]

/-- Claim C8: for a document whose page lookup finds no existing page,
the engine submits exactly one create call, carrying the title, the
effective space, the resolved parent id and the rendered body; and on
success it attaches exactly one fingerprint label, carrying the newly
computed fingerprint, to the newly created page's id. -/
theorem c8_create_path (cfg : Config) (api : API) (render : List Nat → String)
    (fm : FrontMatterStruct) (space parentID : String) (t0 : List RepoCall)
    (cs : ContentSearch)
    (h1 : resolve cfg api fm = .ok (space, parentID, t0))
    (h2 : api.getContent fm.pageTitle space = .ok cs)
    (h3 : cs.size = 0) :
    (processDoc cfg api render fm).2.countP isCreateCall = 1 ∧
    RepoCall.create ⟨"", fm.pageTitle, 0, space, parentID, render fm.content⟩ ∈
      (processDoc cfg api render fm).2 ∧
    (∀ newPage : Content,
      api.createContent ⟨"", fm.pageTitle, 0, space, parentID,
        render fm.content⟩ = .ok newPage →
      api.addLabels newPage.id [fingerprint fm.content] = .ok () →
      processDoc cfg api render fm =
        (.created,
         t0 ++ [RepoCall.find fm.pageTitle space,
                .create ⟨"", fm.pageTitle, 0, space, parentID, render fm.content⟩,
                .addLabels newPage.id [fingerprint fm.content]])) := by
  rw [processDoc_notfound cfg api render fm space parentID t0 cs h1 h2 h3]
  have ht0 : t0.countP isCreateCall = 0 := by
    rcases resolve_ok_trace cfg api fm space parentID t0 h1 with h | h <;> subst h <;>
      simp [List.countP_cons, isCreateCall]
  refine ⟨?_, ?_, ?_⟩
  · rw [(createGo_cases api space parentID fm.pageTitle (fingerprint fm.content)
      (render fm.content) (t0 ++ [RepoCall.find fm.pageTitle space])).1]
    simp [List.countP_append, List.countP_cons, isCreateCall, ht0]
  · exact (createGo_cases api space parentID fm.pageTitle (fingerprint fm.content)
      (render fm.content) (t0 ++ [RepoCall.find fm.pageTitle space])).2
  · intro newPage hc ha
    rw [createGo_success api space parentID fm.pageTitle (fingerprint fm.content)
      (render fm.content) (t0 ++ [RepoCall.find fm.pageTitle space]) newPage hc ha]
    simp

/-! ## Claim C6: fingerprint-label uniqueness after update -/

/-- An oracle for a page that carries two `sha-` labels. -/
def apiC : API :=
  { getContent := fun _ _ => .ok ⟨1, [⟨"PID", 0⟩]⟩
    getContentByID := fun _ => .ok ⟨"PID", 7⟩
    getLabels := fun _ => .ok [⟨"sha-old1"⟩, ⟨"sha-old2"⟩]
    deleteLabel := fun _ _ => .ok ()
    updateContent := fun _ => .ok ()
    createContent := fun _ => .error "unused"
    addLabels := fun _ _ => .ok () }

set_option maxRecDepth 4000 in
/-- Claim C6 counterexample: a page carrying two `sha-` labels before a
successful update ends with two `sha-` labels — only the first one found
is deleted (lines 169-188), so uniqueness does not hold regardless of
how many such labels the page carried before. -/
theorem c6_counterexample :
    (processDoc cfgA apiC renderA docA).1 = .updated ∧
    (applyCalls "PID" ["sha-old1", "sha-old2"]
        (processDoc cfgA apiC renderA docA).2).countP
      (fun l => strHasPre l "sha-") = 2 := by
  constructor
  · decide
  · decide

theorem countP_split {α : Type} (l : List α) (p q : α → Bool) :
    l.countP p = l.countP (fun a => p a && q a) + l.countP (fun a => p a && !q a) := by
  induction l with
  | nil => rfl
  | cons a l ih =>
    cases hp : p a <;> cases hq : q a <;>
      simp [List.countP_cons, hp, hq, ih] <;> omega

theorem one_sha_after (P : List String) (sha : String)
    (hsha : strHasPre sha "sha-" = true)
    (hP : P.countP (fun n => strHasPre n "sha-") = 0) :
    (if P.contains sha then P else P ++ [sha]).countP
      (fun n => strHasPre n "sha-") = 1 := by
  have hnotmem : sha ∉ P := fun hm =>
    absurd hsha (by simpa using List.countP_eq_zero.mp hP sha hm)
  have hfalse : P.contains sha = false := by
    cases hc : P.contains sha
    · rfl
    · exact absurd (List.elem_iff.mp hc) hnotmem
  rw [hfalse]
  simp [List.countP_append, List.countP_cons, hP, hsha]

theorem filtered_sha_count (P : List String) (nm : String)
    (hmem : nm ∈ P) (hnm : strHasPre nm "sha-" = true)
    (hP : P.countP (fun n => strHasPre n "sha-") ≤ 1) :
    (P.filter (fun l => l != nm)).countP (fun n => strHasPre n "sha-") = 0 := by
  rw [List.countP_filter]
  have hsplit := countP_split P (fun n => strHasPre n "sha-") (fun n => n == nm)
  have h1 : 0 < P.countP (fun a => strHasPre a "sha-" && (a == nm)) :=
    List.countP_pos_iff.mpr ⟨nm, hmem, by simp [hnm]⟩
  have h2 : P.countP (fun a => strHasPre a "sha-" && !(a == nm)) = 0 := by omega
  calc P.countP (fun a => strHasPre a "sha-" && (a != nm))
      = P.countP (fun a => strHasPre a "sha-" && !(a == nm)) := by
        simp only [bne]
    _ = 0 := h2

theorem firstShaLabel_cases (labels : List Label) :
    ((firstShaLabel labels).name = "" ∧
      ∀ l ∈ labels, strHasPre l.name "sha-" = false) ∨
    (strHasPre (firstShaLabel labels).name "sha-" = true ∧
      firstShaLabel labels ∈ labels) := by
  unfold firstShaLabel
  cases hf : labels.find? (fun l => strHasPre l.name "sha-") with
  | none =>
    left
    exact ⟨rfl, fun l hl => by simpa using List.find?_eq_none.mp hf l hl⟩
  | some l0 =>
    right
    have hp := @List.find?_some Label (fun l => strHasPre l.name "sha-") l0 labels hf
    have hm : l0 ∈ labels := List.mem_of_find?_eq_some hf
    exact ⟨hp, hm⟩

theorem str_of_length_zero (s : String) (h : s.length = 0) : s = "" := by
  apply String.ext
  exact List.length_eq_zero.mp h

/-- Claim C6 (amended): after a successful update of a page that carried
at most one label with the reserved `"sha-"` prefix, the page's label
set contains exactly one such label. With two or more prior `"sha-"`
labels only the first one found is removed, so uniqueness is only
preserved, not enforced. -/
theorem c6_amended (cfg : Config) (api : API) (render : List Nat → String)
    (fm : FrontMatterStruct) (space parentID : String) (t0 : List RepoCall)
    (cs : ContentSearch) (pinfo : Content) (labels : List Label)
    (h1 : resolve cfg api fm = .ok (space, parentID, t0))
    (h2 : api.getContent fm.pageTitle space = .ok cs)
    (h3 : cs.size ≠ 0)
    (h4 : api.getContentByID (cs.results.headD emptyContent).id = .ok pinfo)
    (h5 : api.getLabels (cs.results.headD emptyContent).id = .ok labels)
    (hne : (firstShaLabel labels).name ≠ fingerprint fm.content)
    (hdel : (firstShaLabel labels).name.length ≠ 0 →
      api.deleteLabel (cs.results.headD emptyContent).id
        (firstShaLabel labels).name = .ok ())
    (hupd : api.updateContent ⟨(cs.results.headD emptyContent).id, fm.pageTitle,
      pinfo.version + 1, space, parentID, render fm.content⟩ = .ok ())
    (hadd : api.addLabels (cs.results.headD emptyContent).id
      [fingerprint fm.content] = .ok ())
    (hprior : (labels.map Label.name).countP
      (fun n => strHasPre n "sha-") ≤ 1) :
    (processDoc cfg api render fm).1 = .updated ∧
    (applyCalls (cs.results.headD emptyContent).id (labels.map Label.name)
        (processDoc cfg api render fm).2).countP
      (fun n => strHasPre n "sha-") = 1 := by
  rw [processDoc_found cfg api render fm space parentID t0 cs h1 h2 h3,
    updateGo_success api space parentID fm.pageTitle (fingerprint fm.content)
      (render fm.content) (cs.results.headD emptyContent)
      (t0 ++ [RepoCall.find fm.pageTitle space]) pinfo labels h4 h5 hne hdel hupd hadd]
  refine ⟨rfl, ?_⟩
  have ht0 : List.foldl (applyCall (cs.results.headD emptyContent).id)
      (labels.map Label.name) t0 = labels.map Label.name := by
    rcases resolve_ok_trace cfg api fm space parentID t0 h1 with h | h <;> subst h <;>
      simp [applyCall]
  rcases firstShaLabel_cases labels with ⟨hname, hall⟩ | ⟨hpre, hmem⟩
  · have hlen : ¬((firstShaLabel labels).name.length ≠ 0) := by rw [hname]; simp
    rw [if_neg hlen]
    have hP : (labels.map Label.name).countP (fun n => strHasPre n "sha-") = 0 := by
      rw [List.countP_eq_zero]
      intro n hn
      rcases List.mem_map.mp hn with ⟨l, hl, rfl⟩
      simp [hall l hl]
    simp only [applyCalls, List.foldl_append, List.foldl, applyCall, if_true]
    rw [ht0]
    exact one_sha_after (labels.map Label.name) (fingerprint fm.content)
      (fingerprint_hasPre fm.content) hP
  · have hlen : (firstShaLabel labels).name.length ≠ 0 :=
      sha_label_length_ne_zero (firstShaLabel labels).name hpre
    rw [if_pos hlen]
    have hmemP : (firstShaLabel labels).name ∈ labels.map Label.name :=
      List.mem_map.mpr ⟨firstShaLabel labels, hmem, rfl⟩
    have hfc := filtered_sha_count (labels.map Label.name)
      (firstShaLabel labels).name hmemP hpre hprior
    simp only [applyCalls, List.foldl_append, List.foldl, applyCall, if_true]
    rw [ht0]
    exact one_sha_after _ (fingerprint fm.content)
      (fingerprint_hasPre fm.content) hfc

/-! ## Concrete witnesses -/

/-- An oracle for a page whose stored fingerprint equals the fingerprint
of the empty body. -/
def apiD : API :=
  { getContent := fun _ _ => .ok ⟨1, [⟨"PID", 0⟩]⟩
    getContentByID := fun _ => .ok ⟨"PID", 7⟩
    getLabels := fun _ => .ok [⟨"sha-e3b0c442"⟩]
    deleteLabel := fun _ _ => .error "unused"
    updateContent := fun _ => .error "unused"
    createContent := fun _ => .error "unused"
    addLabels := fun _ _ => .error "unused" }

set_option maxRecDepth 4000 in
/-- Witness for C4: a matching fingerprint label yields the skip outcome
with a mutation-free trace. -/
theorem c4_witness :
    processDoc cfgA apiD renderA docA =
      (.skip, [.find "T" "S", .getByID "PID", .getLabels "PID"]) := by
  have h := (c4_skip_iff cfgA apiD renderA docA "S" "P" [] ⟨1, [⟨"PID", 0⟩]⟩
    ⟨"PID", 7⟩ [⟨"sha-e3b0c442"⟩] rfl rfl (by decide) rfl rfl).2.1 (by decide)
  exact h

/-- An oracle for a page carrying a stale fingerprint label, with all
mutations succeeding. -/
def apiE : API :=
  { getContent := fun _ _ => .ok ⟨1, [⟨"PID", 0⟩]⟩
    getContentByID := fun _ => .ok ⟨"PID", 7⟩
    getLabels := fun _ => .ok [⟨"sha-stale00"⟩]
    deleteLabel := fun _ _ => .ok ()
    updateContent := fun _ => .ok ()
    createContent := fun _ => .error "unused"
    addLabels := fun _ _ => .ok () }

set_option maxRecDepth 4000 in
/-- Witness for C5: the full update sequence at a concrete input. -/
theorem c5_witness :
    processDoc cfgA apiE renderA docA =
      (.updated,
       [.find "T" "S", .getByID "PID", .getLabels "PID",
        .deleteLabel "PID" "sha-stale00",
        .update ⟨"PID", "T", 8, "S", "P", "HTML"⟩,
        .addLabels "PID" ["sha-e3b0c442"]]) := by
  have h := (c5_update_sequence cfgA apiE renderA docA "S" "P" [] ⟨1, [⟨"PID", 0⟩]⟩
    ⟨"PID", 7⟩ [⟨"sha-stale00"⟩] rfl rfl (by decide) rfl rfl
    (by decide)).2.2.2 (fun _ => rfl) rfl rfl
  exact h

/-- An oracle for a page carrying exactly one prior fingerprint label. -/
def apiF : API :=
  { getContent := fun _ _ => .ok ⟨1, [⟨"PID", 0⟩]⟩
    getContentByID := fun _ => .ok ⟨"PID", 7⟩
    getLabels := fun _ => .ok [⟨"sha-old1"⟩]
    deleteLabel := fun _ _ => .ok ()
    updateContent := fun _ => .ok ()
    createContent := fun _ => .error "unused"
    addLabels := fun _ _ => .ok () }

set_option maxRecDepth 4000 in
/-- Witness for C6 (amended): starting from a single prior fingerprint
label, a successful update leaves exactly one `"sha-"` label. -/
theorem c6_witness :
    (processDoc cfgA apiF renderA docA).1 = .updated ∧
    (applyCalls "PID" ["sha-old1"]
        (processDoc cfgA apiF renderA docA).2).countP
      (fun n => strHasPre n "sha-") = 1 := by
  have h := c6_amended cfgA apiF renderA docA "S" "P" [] ⟨1, [⟨"PID", 0⟩]⟩
    ⟨"PID", 7⟩ [⟨"sha-old1"⟩] rfl rfl (by decide) rfl rfl
    (by decide) (fun _ => rfl) rfl rfl (by decide)
  exact h

/-- An oracle with no existing page, where create and label calls
succeed. -/
def apiG : API :=
  { getContent := fun _ _ => .ok ⟨0, []⟩
    getContentByID := fun _ => .error "unused"
    getLabels := fun _ => .error "unused"
    deleteLabel := fun _ _ => .error "unused"
    updateContent := fun _ => .error "unused"
    createContent := fun _ => .ok ⟨"NEW", 1⟩
    addLabels := fun _ _ => .ok () }

set_option maxRecDepth 4000 in
/-- Witness for C8: the create path at a concrete input. -/
theorem c8_witness :
    processDoc cfgA apiG renderA docA =
      (.created,
       [.find "T" "S",
        .create ⟨"", "T", 0, "S", "P", "HTML"⟩,
        .addLabels "NEW" ["sha-e3b0c442"]]) := by
  have h := (c8_create_path cfgA apiG renderA docA "S" "P" [] ⟨0, []⟩
    rfl rfl rfl).2.2 ⟨"NEW", 1⟩ rfl rfl
  exact h
